import Mathlib

/-!
Shallow embedding of `src/AdaptiveHeating.py` (an adaptive diesel-heater
curve controller).  Python floats are modelled as rationals; `round(x, 2)`
is round-half-to-even at two decimals; the `collections.deque(maxlen=5)`
smoothing buffer is a list that keeps its last five elements; the JSON
parameter file is modelled as a `StoreContent` value, with unparsable
content raising (an `Except.error`) exactly as `json.load` does.
-/

/-- Hardware constant `f_min = 1.4` Hz. -/
def f_min : ℚ := 7/5

/-- Hardware constant `f_max = 5.5` Hz. -/
def f_max : ℚ := 11/2

/-- Hardware constant `p_min = 1.1e3` W. -/
def p_min : ℚ := 1100

/-- Hardware constant `p_max = 4.3e3` W. -/
def p_max : ℚ := 4300

/-- Hysteresis threshold `0.2` Hz. -/
def hysteresis : ℚ := 1/5

/-- Round-half-to-even to an integer, as Python's `round` does. -/
def roundHalfEven (q : ℚ) : ℤ :=
  if q - ⌊q⌋ < 1/2 then ⌊q⌋
  else if 1/2 < q - ⌊q⌋ then ⌊q⌋ + 1
  else if 2 ∣ ⌊q⌋ then ⌊q⌋ else ⌊q⌋ + 1

/-- Python's `round(q, 2)`: round-half-to-even at two decimal places. -/
def round2 (q : ℚ) : ℚ := (roundHalfEven (100 * q) : ℚ) / 100

/-- `collections.deque(maxlen=5)` append: keep the last five elements. -/
def dequeAppend (h : List ℚ) (x : ℚ) : List ℚ :=
  (h ++ [x]).drop (h.length + 1 - 5)

/-- `sum(l) / len(l)`, the moving average of the smoothing buffer. -/
def avgOf (l : List ℚ) : ℚ := l.sum / (l.length : ℚ)

/-- The mutable state of an `AdaptiveHeating` object (the fixed hardware
constants `f_min`, `f_max`, `p_min`, `p_max` and the hysteresis threshold
are global constants above, as the spec treats them as fixed). -/
structure AdaptiveHeating where
  target_temp : ℚ
  learning_rate : ℚ
  k1 : ℚ
  k2 : ℚ
  freq_history : List ℚ
  last_freq : ℚ
deriving DecidableEq

/-- Logical content of the JSON parameter file: the file may be missing,
may hold unparsable bytes (on which `json.load` raises), or may hold a
record in which each of the keys `k1`, `k2` is present or not. -/
inductive StoreContent where
  | absent
  | malformed
  | record (k1v : Option ℚ) (k2v : Option ℚ)
deriving DecidableEq

/-- `save_params`: the JSON record `{"k1": k1, "k2": k2}` written to the
parameter file. -/
def save_params (s : AdaptiveHeating) : StoreContent :=
  StoreContent.record (some s.k1) (some s.k2)

/-- `load_params`: missing file falls back to the defaults; a parsable
record falls back key-by-key via `data.get`; unparsable content raises. -/
def load_params (content : StoreContent) (default_k1 default_k2 : ℚ) :
    Except Unit (ℚ × ℚ) :=
  match content with
  | StoreContent.absent => Except.ok (default_k1, default_k2)
  | StoreContent.malformed => Except.error ()
  | StoreContent.record k1v k2v =>
      Except.ok (k1v.getD default_k1, k2v.getD default_k2)

/-- The in-memory state `__init__` builds once `k1`, `k2` are known:
empty smoothing buffer, `last_freq = f_min`. -/
def mkHeating (target_temp learning_rate k1 k2 : ℚ) : AdaptiveHeating :=
  { target_temp := target_temp, learning_rate := learning_rate,
    k1 := k1, k2 := k2, freq_history := [], last_freq := f_min }

/-- `AdaptiveHeating.__init__`: construction with caller-supplied defaults
and a parameter store in state `content`. -/
def construct (target_temp learning_rate default_k1 default_k2 : ℚ)
    (content : StoreContent) : Except Unit AdaptiveHeating :=
  (load_params content default_k1 default_k2).map fun p =>
    mkHeating target_temp learning_rate p.1 p.2

/-- `update_curve`: gradient step on `k1`, `k2`, clamp to `[0,20]` and
`[0,50]`, then save.  Returns the new state and the saved record. -/
def update_curve (s : AdaptiveHeating) (temp_ext temp_int : ℚ) :
    AdaptiveHeating × StoreContent :=
  let error := s.target_temp - temp_int
  let k1a := s.k1 + s.learning_rate * error
  let k2a := s.k2 + s.learning_rate * (error / 2)
  let k1b := max 0 (min k1a 20)
  let k2b := max 0 (min k2a 50)
  let sNew := { s with k1 := k1b, k2 := k2b }
  (sNew, save_params sNew)

/-- The raw candidate frequency of one active `heating_frequency` call:
power demand clamped to `[0, p_max]`, mapped linearly to frequency,
clamped to `[f_min, f_max]` and rounded to two decimals. -/
def rawCandidate (s : AdaptiveHeating) (temp_ext : ℚ) : ℚ :=
  let power0 := max 0 (s.k1 * (s.target_temp - temp_ext) + s.k2)
  let power := min power0 p_max
  let frequency := f_min + ((power - p_min) / (p_max - p_min)) * (f_max - f_min)
  round2 (max f_min (min frequency f_max))

/-- `heating_frequency`: `None` in warm-up mode; otherwise append the raw
candidate to the smoothing buffer, average, apply the hysteresis gate to
`last_freq`, and return `round(last_freq, 2)`.  Returns the result and
the new state. -/
def heating_frequency (s : AdaptiveHeating) (temp_ext : ℚ)
    (heater_state : Bool) : Option ℚ × AdaptiveHeating :=
  if heater_state then
    let frequency := rawCandidate s temp_ext
    let hist := dequeAppend s.freq_history frequency
    let avg_frequency := avgOf hist
    let last :=
      if hysteresis ≤ |avg_frequency - s.last_freq| then avg_frequency
      else s.last_freq
    (some (round2 last), { s with freq_history := hist, last_freq := last })
  else
    (none, s)

/-- One public call on the controller, as a step relation. -/
inductive Step : AdaptiveHeating → AdaptiveHeating → Prop where
  | update (s : AdaptiveHeating) (temp_ext temp_int : ℚ) :
      Step s (update_curve s temp_ext temp_int).1
  | freq (s : AdaptiveHeating) (temp_ext : ℚ) (heater_state : Bool) :
      Step s (heating_frequency s temp_ext heater_state).2

/-- Reachability by any finite sequence of public calls. -/
inductive Reaches : AdaptiveHeating → AdaptiveHeating → Prop where
  | refl (s : AdaptiveHeating) : Reaches s s
  | tail {s t u : AdaptiveHeating} : Reaches s t → Step t u → Reaches s u

/-- Invariant on the frequency-side state: the last applied frequency and
every buffered raw candidate lie in the pump range `[f_min, f_max]`. -/
def FreqOK (s : AdaptiveHeating) : Prop :=
  (f_min ≤ s.last_freq ∧ s.last_freq ≤ f_max) ∧
    ∀ x ∈ s.freq_history, f_min ≤ x ∧ x ≤ f_max

theorem roundHalfEven_le (q : ℚ) (n : ℤ) (h : q ≤ (n : ℚ)) :
    roundHalfEven q ≤ n := by
  have hfn : ⌊q⌋ ≤ n := by
    have h2 := Int.floor_le_floor h
    rwa [Int.floor_intCast] at h2
  have hq : (⌊q⌋ : ℚ) ≤ q := Int.floor_le q
  unfold roundHalfEven
  split_ifs with h1 h2 h3
  · exact hfn
  · have hlt : (⌊q⌋ : ℚ) < q := by linarith
    have : ⌊q⌋ < n := by exact_mod_cast lt_of_lt_of_le hlt h
    omega
  · exact hfn
  · have hlt : (⌊q⌋ : ℚ) < q := by linarith
    have : ⌊q⌋ < n := by exact_mod_cast lt_of_lt_of_le hlt h
    omega

theorem le_roundHalfEven (q : ℚ) (n : ℤ) (h : (n : ℚ) ≤ q) :
    n ≤ roundHalfEven q := by
  have hfn : n ≤ ⌊q⌋ := Int.le_floor.mpr h
  unfold roundHalfEven
  split_ifs <;> omega

theorem round2_le (q : ℚ) (n : ℤ) (h : q ≤ (n : ℚ) / 100) :
    round2 q ≤ (n : ℚ) / 100 := by
  have h1 : 100 * q ≤ (n : ℚ) := by linarith
  have h2 : roundHalfEven (100 * q) ≤ n := roundHalfEven_le _ _ h1
  have h3 : ((roundHalfEven (100 * q) : ℤ) : ℚ) ≤ (n : ℚ) := by exact_mod_cast h2
  unfold round2
  linarith

theorem le_round2 (q : ℚ) (n : ℤ) (h : (n : ℚ) / 100 ≤ q) :
    (n : ℚ) / 100 ≤ round2 q := by
  have h1 : (n : ℚ) ≤ 100 * q := by linarith
  have h2 : n ≤ roundHalfEven (100 * q) := le_roundHalfEven _ _ h1
  have h3 : (n : ℚ) ≤ ((roundHalfEven (100 * q) : ℤ) : ℚ) := by exact_mod_cast h2
  unfold round2
  linarith

theorem roundHalfEven_intCast (n : ℤ) : roundHalfEven (n : ℚ) = n := by
  unfold roundHalfEven
  rw [Int.floor_intCast]
  norm_num

theorem round2_idem (q : ℚ) : round2 (round2 q) = round2 q := by
  unfold round2
  rw [show (100 : ℚ) * ((roundHalfEven (100 * q) : ℚ) / 100) =
      ((roundHalfEven (100 * q) : ℤ) : ℚ) by ring, roundHalfEven_intCast]

theorem length_dequeAppend_pos (h : List ℚ) (x : ℚ) :
    0 < (dequeAppend h x).length := by
  unfold dequeAppend
  rw [List.length_drop]
  simp only [List.length_append, List.length_singleton]
  omega

theorem dequeAppend_ne_nil (h : List ℚ) (x : ℚ) : dequeAppend h x ≠ [] := by
  have := length_dequeAppend_pos h x
  intro hc
  rw [hc] at this
  simp at this

theorem mem_dequeAppend (h : List ℚ) (x y : ℚ) (hm : y ∈ dequeAppend h x) :
    y ∈ h ∨ y = x := by
  unfold dequeAppend at hm
  have h2 := List.mem_of_mem_drop hm
  rcases List.mem_append.mp h2 with h3 | h3
  · exact Or.inl h3
  · simp at h3
    exact Or.inr h3

theorem dequeAppend_shape (h : List ℚ) (x : ℚ) :
    ∃ h2, dequeAppend h x = h2 ++ [x] ∧ h2.length ≤ 4 := by
  refine ⟨h.drop (h.length + 1 - 5), ?_, ?_⟩
  · unfold dequeAppend
    rw [List.drop_append_of_le_length (by omega)]
  · rw [List.length_drop]
    omega

theorem dequeAppend_five (h : List ℚ) (c : ℚ) :
    dequeAppend (dequeAppend (dequeAppend (dequeAppend (dequeAppend h c) c) c) c) c
      = [c, c, c, c, c] := by
  obtain ⟨h2, he, hl⟩ := dequeAppend_shape h c
  rw [he]
  rcases h2 with _ | ⟨a, _ | ⟨b, _ | ⟨d, _ | ⟨e, _ | ⟨f, tl⟩⟩⟩⟩⟩
  · rfl
  · rfl
  · rfl
  · rfl
  · rfl
  · simp only [List.length_cons] at hl
    omega

theorem avgOf_replicate (c : ℚ) : avgOf [c, c, c, c, c] = c := by
  simp only [avgOf, List.sum_cons, List.sum_nil, List.length_cons, List.length_nil]
  norm_num
  ring

theorem le_avgOf (l : List ℚ) (a : ℚ) (hne : l ≠ []) (ha : ∀ x ∈ l, a ≤ x) :
    a ≤ avgOf l := by
  have hlen : 0 < l.length := List.length_pos.mpr hne
  have hlenQ : (0 : ℚ) < (l.length : ℚ) := by exact_mod_cast hlen
  have hsum : (l.length : ℚ) * a ≤ l.sum := by
    have := List.card_nsmul_le_sum l a ha
    rwa [nsmul_eq_mul] at this
  unfold avgOf
  rw [le_div_iff₀ hlenQ]
  linarith

theorem avgOf_le (l : List ℚ) (b : ℚ) (hne : l ≠ []) (hb : ∀ x ∈ l, x ≤ b) :
    avgOf l ≤ b := by
  have hlen : 0 < l.length := List.length_pos.mpr hne
  have hlenQ : (0 : ℚ) < (l.length : ℚ) := by exact_mod_cast hlen
  have hsum : l.sum ≤ (l.length : ℚ) * b := by
    have := List.sum_le_card_nsmul l b hb
    rwa [nsmul_eq_mul] at this
  unfold avgOf
  rw [div_le_iff₀ hlenQ]
  linarith

theorem round2_mem (x : ℚ) (h1 : f_min ≤ x) (h2 : x ≤ f_max) :
    f_min ≤ round2 x ∧ round2 x ≤ f_max := by
  have h140 : ((140 : ℤ) : ℚ) / 100 = f_min := by norm_num [f_min]
  have h550 : ((550 : ℤ) : ℚ) / 100 = f_max := by norm_num [f_max]
  constructor
  · rw [← h140]
    exact le_round2 x 140 (by rw [h140]; exact h1)
  · rw [← h550]
    exact round2_le x 550 (by rw [h550]; exact h2)

theorem rawCandidate_mem (s : AdaptiveHeating) (t : ℚ) :
    f_min ≤ rawCandidate s t ∧ rawCandidate s t ≤ f_max := by
  have hfm : f_min ≤ f_max := by norm_num [f_min, f_max]
  simp only [rawCandidate]
  exact round2_mem _ (le_max_left _ _) (max_le hfm (min_le_right _ _))

theorem rawCandidate_round (s : AdaptiveHeating) (t : ℚ) :
    round2 (rawCandidate s t) = rawCandidate s t := by
  simp only [rawCandidate]
  exact round2_idem _

theorem heating_frequency_fst (s : AdaptiveHeating) (te : ℚ) :
    (heating_frequency s te true).1 =
      some (round2 ((heating_frequency s te true).2.last_freq)) := rfl

theorem heating_frequency_hist (s : AdaptiveHeating) (te : ℚ) :
    (heating_frequency s te true).2.freq_history =
      dequeAppend s.freq_history (rawCandidate s te) := rfl

theorem heating_frequency_last (s : AdaptiveHeating) (te : ℚ) :
    (heating_frequency s te true).2.last_freq =
      if hysteresis ≤
          |avgOf (dequeAppend s.freq_history (rawCandidate s te)) - s.last_freq|
        then avgOf (dequeAppend s.freq_history (rawCandidate s te))
        else s.last_freq := rfl

theorem heating_frequency_k (s : AdaptiveHeating) (te : ℚ) (b : Bool) :
    (heating_frequency s te b).2.k1 = s.k1 ∧
      (heating_frequency s te b).2.k2 = s.k2 ∧
      (heating_frequency s te b).2.target_temp = s.target_temp ∧
      (heating_frequency s te b).2.learning_rate = s.learning_rate := by
  cases b
  · exact ⟨rfl, rfl, rfl, rfl⟩
  · exact ⟨rfl, rfl, rfl, rfl⟩

theorem update_curve_freq (s : AdaptiveHeating) (te ti : ℚ) :
    (update_curve s te ti).1.freq_history = s.freq_history ∧
      (update_curve s te ti).1.last_freq = s.last_freq := ⟨rfl, rfl⟩

theorem freqOK_mk (t lr k1 k2 : ℚ) : FreqOK (mkHeating t lr k1 k2) := by
  refine ⟨⟨le_refl _, by norm_num [mkHeating, f_min, f_max]⟩, ?_⟩
  intro x hx
  simp [mkHeating] at hx

theorem freqOK_step {s u : AdaptiveHeating} (hs : FreqOK s) (h : Step s u) :
    FreqOK u := by
  obtain ⟨⟨hl1, hl2⟩, hh⟩ := hs
  cases h with
  | update te ti =>
      exact ⟨⟨by rw [(update_curve_freq s te ti).2]; exact hl1,
              by rw [(update_curve_freq s te ti).2]; exact hl2⟩,
             by rw [(update_curve_freq s te ti).1]; exact hh⟩
  | freq te hstate =>
      cases hstate with
      | false => exact ⟨⟨hl1, hl2⟩, hh⟩
      | true =>
          have hist_mem : ∀ x ∈ dequeAppend s.freq_history (rawCandidate s te),
              f_min ≤ x ∧ x ≤ f_max := by
            intro x hx
            rcases mem_dequeAppend _ _ _ hx with hin | hx2
            · exact hh x hin
            · rw [hx2]
              exact rawCandidate_mem s te
          have hne := dequeAppend_ne_nil s.freq_history (rawCandidate s te)
          have havg1 : f_min ≤ avgOf (dequeAppend s.freq_history (rawCandidate s te)) :=
            le_avgOf _ _ hne fun x hx => (hist_mem x hx).1
          have havg2 : avgOf (dequeAppend s.freq_history (rawCandidate s te)) ≤ f_max :=
            avgOf_le _ _ hne fun x hx => (hist_mem x hx).2
          refine ⟨?_, ?_⟩
          · rw [heating_frequency_last s te]
            split_ifs
            · exact ⟨havg1, havg2⟩
            · exact ⟨hl1, hl2⟩
          · rw [heating_frequency_hist s te]
            exact hist_mem

theorem freqOK_reaches {s u : AdaptiveHeating} (h : Reaches s u) (hs : FreqOK s) :
    FreqOK u := by
  induction h with
  | refl => exact hs
  | tail _ hstep ih => exact freqOK_step ih hstep

theorem update_curve_k_mem (s : AdaptiveHeating) (te ti : ℚ) :
    0 ≤ (update_curve s te ti).1.k1 ∧ (update_curve s te ti).1.k1 ≤ 20 ∧
      0 ≤ (update_curve s te ti).1.k2 ∧ (update_curve s te ti).1.k2 ≤ 50 := by
  refine ⟨?_, ?_, ?_, ?_⟩ <;> simp only [update_curve]
  · exact le_max_left _ _
  · exact max_le (by norm_num) (min_le_right _ _)
  · exact le_max_left _ _
  · exact max_le (by norm_num) (min_le_right _ _)

/-- Claim C1, amended: construction does not clamp, so the invariant holds
for every state reachable from a construction whose initial coefficients
already lie within the bounds: then `0 ≤ k1 ≤ 20` and `0 ≤ k2 ≤ 50` hold
after any sequence of `update_curve` and `heating_frequency` calls with any
temperature inputs. -/
theorem C1_coefficient_invariant (t lr k1 k2 : ℚ)
    (h1 : 0 ≤ k1) (h2 : k1 ≤ 20) (h3 : 0 ≤ k2) (h4 : k2 ≤ 50)
    (s : AdaptiveHeating) (hr : Reaches (mkHeating t lr k1 k2) s) :
    0 ≤ s.k1 ∧ s.k1 ≤ 20 ∧ 0 ≤ s.k2 ∧ s.k2 ≤ 50 := by
  induction hr with
  | refl => exact ⟨h1, h2, h3, h4⟩
  | tail _ hstep ih =>
      cases hstep with
      | update te ti => exact update_curve_k_mem _ te ti
      | freq te hstate =>
          rw [(heating_frequency_k _ te hstate).1,
            (heating_frequency_k _ te hstate).2.1]
          exact ih

/-- Witness for C1 at the default construction (k1 = 10, k2 = 30). -/
theorem C1_coefficient_invariant_witness :
    0 ≤ (mkHeating 20 (1/10) 10 30).k1 ∧ (mkHeating 20 (1/10) 10 30).k1 ≤ 20 ∧
      0 ≤ (mkHeating 20 (1/10) 10 30).k2 ∧ (mkHeating 20 (1/10) 10 30).k2 ≤ 50 :=
  C1_coefficient_invariant 20 (1/10) 10 30 (by norm_num) (by norm_num)
    (by norm_num) (by norm_num) (mkHeating 20 (1/10) 10 30) (Reaches.refl _)

/-- Counterexample to C1 as stated: constructing from a persisted store
holding `k1 = 25`, `k2 = 60` succeeds and yields a controller whose
coefficients violate the invariant — `load_params` never clamps. -/
theorem C1_counterexample :
    construct 20 (1/10) 10 30 (StoreContent.record (some 25) (some 60)) =
        Except.ok (mkHeating 20 (1/10) 25 60) ∧
      ¬ ((mkHeating 20 (1/10) 25 60).k1 ≤ 20 ∧ (mkHeating 20 (1/10) 25 60).k2 ≤ 50) := by
  refine ⟨rfl, ?_⟩
  intro hc
  norm_num [mkHeating] at hc

/-- Claim C2: for every reachable controller state and every outdoor
temperature, an active `heating_frequency` call returns a present value
lying in `[f_min, f_max] = [1.4, 5.5]`. -/
theorem C2_active_range (t lr k1 k2 : ℚ) (s : AdaptiveHeating)
    (hr : Reaches (mkHeating t lr k1 k2) s) (te : ℚ) :
    ∃ v, (heating_frequency s te true).1 = some v ∧ f_min ≤ v ∧ v ≤ f_max := by
  have hok : FreqOK s := freqOK_reaches hr (freqOK_mk t lr k1 k2)
  have hok2 : FreqOK (heating_frequency s te true).2 :=
    freqOK_step hok (Step.freq s te true)
  exact ⟨round2 ((heating_frequency s te true).2.last_freq),
    heating_frequency_fst s te,
    (round2_mem _ hok2.1.1 hok2.1.2).1, (round2_mem _ hok2.1.1 hok2.1.2).2⟩

/-- Witness for C2 at the default construction and outdoor 0 degrees. -/
theorem C2_active_range_witness :
    ∃ v, (heating_frequency (mkHeating 20 (1/10) 10 30) 0 true).1 = some v ∧
      f_min ≤ v ∧ v ≤ f_max :=
  C2_active_range 20 (1/10) 10 30 (mkHeating 20 (1/10) 10 30) (Reaches.refl _) 0

/-- Claim C3: with `heater_state` false, `heating_frequency` returns `none`
and mutates nothing — `freq_history`, `last_freq`, `k1` and `k2` are all
unchanged. -/
theorem C3_inactive_no_mutation (s : AdaptiveHeating) (te : ℚ) :
    (heating_frequency s te false).1 = none ∧
      (heating_frequency s te false).2.freq_history = s.freq_history ∧
      (heating_frequency s te false).2.last_freq = s.last_freq ∧
      (heating_frequency s te false).2.k1 = s.k1 ∧
      (heating_frequency s te false).2.k2 = s.k2 :=
  ⟨rfl, rfl, rfl, rfl, rfl⟩

/-- Claim C7, amended: a missing store file, or a record missing the `k1`
and `k2` keys, falls back to the caller-supplied defaults; but malformed
(unparsable) store content makes construction fail, since `json.load`
raises. -/
theorem C7_load_fallback (t lr d1 d2 : ℚ) :
    construct t lr d1 d2 StoreContent.absent = Except.ok (mkHeating t lr d1 d2) ∧
      construct t lr d1 d2 (StoreContent.record none none) =
        Except.ok (mkHeating t lr d1 d2) ∧
      construct t lr d1 d2 StoreContent.malformed = Except.error () :=
  ⟨rfl, rfl, rfl⟩

/-- Counterexample to C7 as stated: malformed store content does not fall
back to the defaults — construction fails. -/
theorem C7_counterexample :
    construct 20 (1/10) 10 30 StoreContent.malformed = Except.error () := rfl

/-- Claim C8: saving a controller's coefficients and constructing a new
controller from the saved store reproduces the same `k1` and `k2`. -/
theorem C8_roundtrip (s : AdaptiveHeating) (t lr d1 d2 : ℚ) :
    ∃ s2, construct t lr d1 d2 (save_params s) = Except.ok s2 ∧
      s2.k1 = s.k1 ∧ s2.k2 = s.k2 :=
  ⟨mkHeating t lr s.k1 s.k2, rfl, rfl, rfl⟩

/-- Claim C9: `update_curve` ignores its outdoor-temperature argument —
any two outdoor temperatures give identical resulting states and identical
persisted records. -/
theorem C9_outdoor_unused (s : AdaptiveHeating) (ti a b : ℚ) :
    update_curve s a ti = update_curve s b ti := rfl

/-- Claim C10: on an active call the raw candidate is appended before the
moving average is taken, so the history at the averaging step is the
appended buffer, its length is positive, and the divisor is nonzero. -/
theorem C10_nonempty_average (s : AdaptiveHeating) (te : ℚ) :
    (heating_frequency s te true).2.freq_history =
        dequeAppend s.freq_history (rawCandidate s te) ∧
      0 < (dequeAppend s.freq_history (rawCandidate s te)).length ∧
      ((dequeAppend s.freq_history (rawCandidate s te)).length : ℚ) ≠ 0 := by
  refine ⟨rfl, length_dequeAppend_pos _ _, ?_⟩
  have h := length_dequeAppend_pos s.freq_history (rawCandidate s te)
  exact_mod_cast Nat.pos_iff_ne_zero.mp h

/-- Claim C6, amended: with a positive learning rate and coefficients
strictly inside their clamp ranges, one `update_curve` call strictly
decreases both `k1` and `k2` when the indoor temperature exceeds the
target, and strictly increases both when it is below the target. -/
theorem C6_strict_adaptation (s : AdaptiveHeating) (te ti : ℚ)
    (hlr : 0 < s.learning_rate)
    (hk1a : 0 < s.k1) (hk1b : s.k1 < 20) (hk2a : 0 < s.k2) (hk2b : s.k2 < 50) :
    (s.target_temp < ti →
        (update_curve s te ti).1.k1 < s.k1 ∧ (update_curve s te ti).1.k2 < s.k2) ∧
      (ti < s.target_temp →
        s.k1 < (update_curve s te ti).1.k1 ∧ s.k2 < (update_curve s te ti).1.k2) := by
  have e1 : (update_curve s te ti).1.k1 =
      max 0 (min (s.k1 + s.learning_rate * (s.target_temp - ti)) 20) := rfl
  have e2 : (update_curve s te ti).1.k2 =
      max 0 (min (s.k2 + s.learning_rate * ((s.target_temp - ti) / 2)) 50) := rfl
  constructor
  · intro hgt
    have hd1 : s.learning_rate * (s.target_temp - ti) < 0 :=
      mul_neg_of_pos_of_neg hlr (by linarith)
    have hd2 : s.learning_rate * ((s.target_temp - ti) / 2) < 0 :=
      mul_neg_of_pos_of_neg hlr (by linarith)
    constructor
    · rw [e1, min_eq_left (by linarith)]
      exact max_lt hk1a (by linarith)
    · rw [e2, min_eq_left (by linarith)]
      exact max_lt hk2a (by linarith)
  · intro hlt
    have hd1 : 0 < s.learning_rate * (s.target_temp - ti) :=
      mul_pos hlr (by linarith)
    have hd2 : 0 < s.learning_rate * ((s.target_temp - ti) / 2) :=
      mul_pos hlr (by linarith)
    constructor
    · rw [e1]
      exact lt_of_lt_of_le (lt_min (by linarith) hk1b) (le_max_right _ _)
    · rw [e2]
      exact lt_of_lt_of_le (lt_min (by linarith) hk2b) (le_max_right _ _)

/-- Witness for C6: default-like controller, indoor 25 above target 20. -/
theorem C6_strict_adaptation_witness :
    (update_curve (mkHeating 20 (1/10) 10 30) 0 25).1.k1 <
        (mkHeating 20 (1/10) 10 30).k1 ∧
      (update_curve (mkHeating 20 (1/10) 10 30) 0 25).1.k2 <
        (mkHeating 20 (1/10) 10 30).k2 :=
  (C6_strict_adaptation (mkHeating 20 (1/10) 10 30) 0 25
      (by norm_num [mkHeating]) (by norm_num [mkHeating]) (by norm_num [mkHeating])
      (by norm_num [mkHeating]) (by norm_num [mkHeating])).1
    (by norm_num [mkHeating])

/-- Counterexample to C6 as stated: with learning rate 0 (a state the
constructor admits), coefficients strictly inside their ranges, and indoor
temperature above target, `update_curve` does not strictly decrease `k1`. -/
theorem C6_counterexample :
    0 < (mkHeating 20 0 10 30).k1 ∧ (mkHeating 20 0 10 30).k1 < 20 ∧
      0 < (mkHeating 20 0 10 30).k2 ∧ (mkHeating 20 0 10 30).k2 < 50 ∧
      (mkHeating 20 0 10 30).target_temp < 25 ∧
      ¬ ((update_curve (mkHeating 20 0 10 30) 0 25).1.k1 <
          (mkHeating 20 0 10 30).k1) := by
  refine ⟨?_, ?_, ?_, ?_, ?_, ?_⟩ <;> norm_num [mkHeating, update_curve]

/-- Claim C4, amended: the hysteresis gate compares the new moving average
with the last APPLIED frequency, so if the second call's moving average
differs from the applied frequency after the first call by less than the
threshold, the second active call returns exactly the first call's value. -/
theorem C4_hysteresis_hold (s0 : AdaptiveHeating) (t1 t2 : ℚ)
    (h : |avgOf ((heating_frequency (heating_frequency s0 t1 true).2 t2 true).2.freq_history) -
          (heating_frequency s0 t1 true).2.last_freq| < hysteresis) :
    (heating_frequency (heating_frequency s0 t1 true).2 t2 true).1 =
      (heating_frequency s0 t1 true).1 := by
  rw [heating_frequency_fst ((heating_frequency s0 t1 true).2) t2,
    heating_frequency_fst s0 t1]
  have hcond := h
  rw [heating_frequency_hist ((heating_frequency s0 t1 true).2) t2] at hcond
  have hlast : (heating_frequency (heating_frequency s0 t1 true).2 t2 true).2.last_freq =
      (heating_frequency s0 t1 true).2.last_freq := by
    rw [heating_frequency_last ((heating_frequency s0 t1 true).2) t2,
      if_neg (not_le.mpr hcond)]
  rw [hlast]

/-- Witness for C4: two active calls at the same outdoor temperature whose
candidate is 1.5 Hz; the second average stays within the deadband. -/
theorem C4_hysteresis_hold_witness :
    (heating_frequency (heating_frequency (mkHeating 20 (1/10) 10 30)
        (-3887/41) true).2 (-3887/41) true).1 =
      (heating_frequency (mkHeating 20 (1/10) 10 30) (-3887/41) true).1 :=
  C4_hysteresis_hold (mkHeating 20 (1/10) 10 30) (-3887/41) (-3887/41)
    (by norm_num [heating_frequency, rawCandidate, mkHeating, f_min, f_max,
      p_min, p_max, round2, roundHalfEven, dequeAppend, avgOf, hysteresis, abs])

/-- Counterexample to C4 as stated: two consecutive active calls whose
moving averages differ by 0.055 Hz (< 0.2), yet the returned frequencies
differ (1.4 Hz then 1.64 Hz) — the gate measures against the applied
frequency, not the previous average. -/
theorem C4_counterexample :
    |avgOf ((heating_frequency (heating_frequency (mkHeating 20 (1/10) 10 30)
            (-4175/41) true).2 (-4527/41) true).2.freq_history) -
        avgOf ((heating_frequency (mkHeating 20 (1/10) 10 30)
            (-4175/41) true).2.freq_history)| < hysteresis ∧
      (heating_frequency (heating_frequency (mkHeating 20 (1/10) 10 30)
          (-4175/41) true).2 (-4527/41) true).1 ≠
        (heating_frequency (mkHeating 20 (1/10) 10 30) (-4175/41) true).1 := by
  constructor <;> norm_num [heating_frequency, rawCandidate, mkHeating, f_min,
    f_max, p_min, p_max, round2, roundHalfEven, dequeAppend, avgOf, hysteresis, abs]

/-- Claim C5, amended: if five consecutive active calls each produce the
same raw candidate `c`, the buffer collapses to `[c,c,c,c,c]` and the
moving average equals `c` by the fifth call; the fifth call returns `c`
when the hysteresis gate opens at that call, and otherwise repeats the
fourth call's returned value (the deadband can hold the old output). -/
theorem C5_convergence (s0 s1 s2 s3 s4 s5 : AdaptiveHeating)
    (t1 t2 t3 t4 t5 c : ℚ)
    (e1 : s1 = (heating_frequency s0 t1 true).2)
    (e2 : s2 = (heating_frequency s1 t2 true).2)
    (e3 : s3 = (heating_frequency s2 t3 true).2)
    (e4 : s4 = (heating_frequency s3 t4 true).2)
    (e5 : s5 = (heating_frequency s4 t5 true).2)
    (c1 : rawCandidate s0 t1 = c) (c2 : rawCandidate s1 t2 = c)
    (c3 : rawCandidate s2 t3 = c) (c4 : rawCandidate s3 t4 = c)
    (c5 : rawCandidate s4 t5 = c) :
    s5.freq_history = [c, c, c, c, c] ∧ avgOf s5.freq_history = c ∧
      (hysteresis ≤ |avgOf s5.freq_history - s4.last_freq| →
        (heating_frequency s4 t5 true).1 = some c) ∧
      (|avgOf s5.freq_history - s4.last_freq| < hysteresis →
        (heating_frequency s4 t5 true).1 = (heating_frequency s3 t4 true).1) := by
  have h1 : s1.freq_history = dequeAppend s0.freq_history c := by
    rw [e1, heating_frequency_hist, c1]
  have h2 : s2.freq_history = dequeAppend s1.freq_history c := by
    rw [e2, heating_frequency_hist, c2]
  have h3 : s3.freq_history = dequeAppend s2.freq_history c := by
    rw [e3, heating_frequency_hist, c3]
  have h4 : s4.freq_history = dequeAppend s3.freq_history c := by
    rw [e4, heating_frequency_hist, c4]
  have h5 : s5.freq_history = dequeAppend s4.freq_history c := by
    rw [e5, heating_frequency_hist, c5]
  have hh : s5.freq_history = [c, c, c, c, c] := by
    rw [h5, h4, h3, h2, h1, dequeAppend_five]
  have havg : avgOf s5.freq_history = c := by rw [hh, avgOf_replicate]
  refine ⟨hh, havg, ?_, ?_⟩
  · intro hg
    have hg2 : hysteresis ≤
        |avgOf (dequeAppend s4.freq_history (rawCandidate s4 t5)) - s4.last_freq| := by
      rw [c5, ← h5]
      exact hg
    have hdq : avgOf (dequeAppend s4.freq_history (rawCandidate s4 t5)) = c := by
      rw [c5, ← h5]
      exact havg
    have hround : round2 c = c := by
      rw [← c5]
      exact rawCandidate_round s4 t5
    rw [heating_frequency_fst s4 t5]
    have hl : (heating_frequency s4 t5 true).2.last_freq = c := by
      rw [heating_frequency_last s4 t5, if_pos hg2, hdq]
    rw [hl, hround]
  · intro hg
    have hg2 : ¬ hysteresis ≤
        |avgOf (dequeAppend s4.freq_history (rawCandidate s4 t5)) - s4.last_freq| := by
      rw [c5, ← h5]
      exact not_le.mpr hg
    rw [heating_frequency_fst s4 t5, heating_frequency_fst s3 t4]
    have hl : (heating_frequency s4 t5 true).2.last_freq = s4.last_freq := by
      rw [heating_frequency_last s4 t5, if_neg hg2]
    rw [hl, e4]

/-- Witness for C5: five active calls on the default-like controller at an
outdoor temperature whose raw candidate is constantly 1.5 Hz. -/
theorem C5_convergence_witness :
    (heating_frequency (heating_frequency (heating_frequency (heating_frequency
        (heating_frequency (mkHeating 20 (1/10) 10 30) (-3887/41) true).2
        (-3887/41) true).2 (-3887/41) true).2 (-3887/41) true).2
        (-3887/41) true).2.freq_history = [3/2, 3/2, 3/2, 3/2, 3/2] ∧
      avgOf ((heating_frequency (heating_frequency (heating_frequency
        (heating_frequency (heating_frequency (mkHeating 20 (1/10) 10 30)
        (-3887/41) true).2 (-3887/41) true).2 (-3887/41) true).2
        (-3887/41) true).2 (-3887/41) true).2.freq_history) = 3/2 ∧
      (heating_frequency (heating_frequency (heating_frequency (heating_frequency
          (heating_frequency (mkHeating 20 (1/10) 10 30) (-3887/41) true).2
          (-3887/41) true).2 (-3887/41) true).2 (-3887/41) true).2
          (-3887/41) true).1 =
        (heating_frequency (heating_frequency (heating_frequency
          (heating_frequency (mkHeating 20 (1/10) 10 30) (-3887/41) true).2
          (-3887/41) true).2 (-3887/41) true).2 (-3887/41) true).1 := by
  have h := C5_convergence (mkHeating 20 (1/10) 10 30)
    ((heating_frequency (mkHeating 20 (1/10) 10 30) (-3887/41) true).2)
    ((heating_frequency (heating_frequency (mkHeating 20 (1/10) 10 30)
      (-3887/41) true).2 (-3887/41) true).2)
    ((heating_frequency (heating_frequency (heating_frequency
      (mkHeating 20 (1/10) 10 30) (-3887/41) true).2 (-3887/41) true).2
      (-3887/41) true).2)
    ((heating_frequency (heating_frequency (heating_frequency (heating_frequency
      (mkHeating 20 (1/10) 10 30) (-3887/41) true).2 (-3887/41) true).2
      (-3887/41) true).2 (-3887/41) true).2)
    ((heating_frequency (heating_frequency (heating_frequency (heating_frequency
      (heating_frequency (mkHeating 20 (1/10) 10 30) (-3887/41) true).2
      (-3887/41) true).2 (-3887/41) true).2 (-3887/41) true).2
      (-3887/41) true).2)
    (-3887/41) (-3887/41) (-3887/41) (-3887/41) (-3887/41) (3/2)
    rfl rfl rfl rfl rfl
    (by norm_num [heating_frequency, rawCandidate, mkHeating, f_min, f_max,
      p_min, p_max, round2, roundHalfEven, dequeAppend, avgOf, hysteresis, abs])
    (by norm_num [heating_frequency, rawCandidate, mkHeating, f_min, f_max,
      p_min, p_max, round2, roundHalfEven, dequeAppend, avgOf, hysteresis, abs])
    (by norm_num [heating_frequency, rawCandidate, mkHeating, f_min, f_max,
      p_min, p_max, round2, roundHalfEven, dequeAppend, avgOf, hysteresis, abs])
    (by norm_num [heating_frequency, rawCandidate, mkHeating, f_min, f_max,
      p_min, p_max, round2, roundHalfEven, dequeAppend, avgOf, hysteresis, abs])
    (by norm_num [heating_frequency, rawCandidate, mkHeating, f_min, f_max,
      p_min, p_max, round2, roundHalfEven, dequeAppend, avgOf, hysteresis, abs])
  exact ⟨h.1, h.2.1, h.2.2.2 (by norm_num [heating_frequency, rawCandidate,
    mkHeating, f_min, f_max, p_min, p_max, round2, roundHalfEven, dequeAppend,
    avgOf, hysteresis, abs])⟩

/-- Counterexample to C5 as stated: five consecutive active calls each
produce raw candidate 1.5 Hz; the moving average converges to 1.5, yet the
fifth call still returns 1.4 Hz (the hysteresis deadband never opens), so
the returned value does not converge to the candidate. -/
theorem C5_counterexample :
    rawCandidate (mkHeating 20 (1/10) 10 30) (-3887/41) = 3/2 ∧
      rawCandidate ((heating_frequency (mkHeating 20 (1/10) 10 30)
        (-3887/41) true).2) (-3887/41) = 3/2 ∧
      rawCandidate ((heating_frequency (heating_frequency
        (mkHeating 20 (1/10) 10 30) (-3887/41) true).2 (-3887/41) true).2)
        (-3887/41) = 3/2 ∧
      rawCandidate ((heating_frequency (heating_frequency (heating_frequency
        (mkHeating 20 (1/10) 10 30) (-3887/41) true).2 (-3887/41) true).2
        (-3887/41) true).2) (-3887/41) = 3/2 ∧
      rawCandidate ((heating_frequency (heating_frequency (heating_frequency
        (heating_frequency (mkHeating 20 (1/10) 10 30) (-3887/41) true).2
        (-3887/41) true).2 (-3887/41) true).2 (-3887/41) true).2)
        (-3887/41) = 3/2 ∧
      avgOf ((heating_frequency (heating_frequency (heating_frequency
        (heating_frequency (heating_frequency (mkHeating 20 (1/10) 10 30)
        (-3887/41) true).2 (-3887/41) true).2 (-3887/41) true).2
        (-3887/41) true).2 (-3887/41) true).2.freq_history) = 3/2 ∧
      (heating_frequency (heating_frequency (heating_frequency
        (heating_frequency (heating_frequency (mkHeating 20 (1/10) 10 30)
        (-3887/41) true).2 (-3887/41) true).2 (-3887/41) true).2
        (-3887/41) true).2 (-3887/41) true).1 = some (7/5) ∧
      (heating_frequency (heating_frequency (heating_frequency
        (heating_frequency (heating_frequency (mkHeating 20 (1/10) 10 30)
        (-3887/41) true).2 (-3887/41) true).2 (-3887/41) true).2
        (-3887/41) true).2 (-3887/41) true).1 ≠ some (3/2) := by
  refine ⟨?_, ?_, ?_, ?_, ?_, ?_, ?_, ?_⟩ <;>
    norm_num [heating_frequency, rawCandidate, mkHeating, f_min, f_max,
      p_min, p_max, round2, roundHalfEven, dequeAppend, avgOf, hysteresis, abs]
